import Mathlib

/-!
Verification of the statement-parsing / categorization / deduplication core
of the ai-finance-tracker repository, as a shallow embedding in Lean.

The embedded functions follow the TypeScript source:
  * csv parsing module: parseCSV, detectColumnMappings, parseRow,
    parseDate, parseAmount (src/unnamed/part_000);
  * categorizer module: categorizeTransaction, parseCategorizationResponse,
    ruleBasedCategorization (src/unnamed/part_001);
  * deduplication hash: generateHash (src/app/api/transactions/route.ts).

Platform primitives that are not part of the repository (Papa.parse, the
HTTP fetch calls, JSON.parse, crypto.subtle.digest, the JavaScript Date
engine) are embedded as explicit inputs or as faithful models, each noted
at its definition site.

Conventions: JavaScript strings are Lean `String`; `undefined` is `none`;
machine numbers that the claims exercise at decimal level are `ℚ`;
32-bit words are `Nat` reduced modulo 2 ^ 32 at every operation.
-/

/-! ## JavaScript-style string and truthiness helpers -/

/-- JS truthiness of a possibly-undefined string: `undefined` and `""` are
falsy, every other string is truthy. -/
def truthyOpt : Option String → Bool
  | none => false
  | some s => !(s == "")

/-- JS `a || b` for a possibly-undefined string with a string default. -/
def jsOrStr (a : Option String) (dflt : String) : String :=
  match a with
  | none => dflt
  | some s => if s == "" then dflt else s

/-- JS `a || b` over two possibly-undefined strings (used for
`process.env.ANTHROPIC_API_KEY || process.env.OPENAI_API_KEY`). -/
def jsOrOpt (a b : Option String) : Option String :=
  if truthyOpt a then a else b

/-- Substring test on character lists: does `hay` contain `needle` as a
contiguous run?  Models JS `String.prototype.includes`. -/
def strIncludes (needle : List Char) : List Char → Bool
  | [] => needle.isEmpty
  | c :: t => needle.isPrefixOf (c :: t) || strIncludes needle t

/-- JS `toLowerCase`, restricted to the ASCII range the repository's
header names and keywords use. -/
def lowerStr (s : String) : String :=
  String.mk (s.data.map Char.toLower)

/-! ## Column Mapper (detectColumnMappings, COLUMN_MAPPINGS) -/

/-- `COLUMN_MAPPINGS.date` from the source. -/
def dateVariants : List String :=
  ["date", "transaction date", "posted date", "trans date", "posting date"]

/-- `COLUMN_MAPPINGS.merchant` from the source. -/
def merchantVariants : List String :=
  ["merchant", "description", "payee", "name", "vendor"]

/-- `COLUMN_MAPPINGS.description` from the source. -/
def descriptionVariants : List String :=
  ["description", "memo", "details", "notes"]

/-- `COLUMN_MAPPINGS.amount` from the source. -/
def amountVariants : List String :=
  ["amount", "value", "transaction amount", "debit", "credit"]

/-- `variations.some((v) => header.toLowerCase().includes(v))` from
`detectColumnMappings`. -/
def headerMatches (variants : List String) (header : String) : Bool :=
  variants.any (fun v => strIncludes v.data (lowerStr header).data)

/-- `headers.find((header) => ...)` for one canonical field. -/
def findHeader (variants : List String) (headers : List String) : Option String :=
  headers.find? (headerMatches variants)

/-- The map built by `detectColumnMappings`: canonical field to chosen
header; a field absent from the JS record is `none`. -/
structure ColumnMap where
  date : Option String
  merchant : Option String
  description : Option String
  amount : Option String
deriving DecidableEq, Repr

/-- `detectColumnMappings(headers)` from the source: for each canonical
field, the first header (in header order) whose lower-cased text contains
any of the field's variants. -/
def detectColumnMappings (headers : List String) : ColumnMap :=
  { date := findHeader dateVariants headers
    merchant := findHeader merchantVariants headers
    description := findHeader descriptionVariants headers
    amount := findHeader amountVariants headers }

/-- The selection rule exactly as the specification words it (variant-major
priority): scan the field's variant list in order; for the first variant
contained in some lower-cased header, pick the first such header.  Stated
only to compare against `detectColumnMappings`; not part of the source. -/
def variantMajorPick (variants : List String) (headers : List String) : Option String :=
  (variants.find? (fun v => headers.any (fun h => strIncludes v.data (lowerStr h).data))).bind
    (fun v => headers.find? (fun h => strIncludes v.data (lowerStr h).data))

/-! ## Amount parsing (parseAmount, JS parseFloat)

`parseFloat` is a JS builtin; it is modelled here at exact decimal
precision (`ℚ`): the repository's amount claims are about decimal values,
and none of them depends on binary floating-point rounding.  The model
covers finite decimal literals (optional sign, digits, fraction,
exponent), which is the grammar `parseFloat` accepts apart from the
`Infinity` literal. -/

/-- ASCII part of the JS `\s` class (the regex in `parseAmount`). -/
def isJsSpace (c : Char) : Bool :=
  c == ' ' || c == '\t' || c == '\n' || c == '\r' ||
    c == Char.ofNat 11 || c == Char.ofNat 12

/-- Value of a digit run, most significant first. -/
def natFromDigits (ds : List Char) : Nat :=
  ds.foldl (fun n c => 10 * n + (c.toNat - 48)) 0

/-- Leading sign of a numeric literal: `(negative?, remainder)`. -/
def signSplit : List Char → Bool × List Char
  | '-' :: t => (true, t)
  | '+' :: t => (false, t)
  | l => (false, l)

/-- JS `parseFloat`, at decimal precision: longest numeric prefix after
optional leading whitespace; `none` models `NaN` (no parsable prefix). -/
def jsParseFloat (s : String) : Option ℚ :=
  let p := signSplit (s.data.dropWhile isJsSpace)
  let intDs := p.2.takeWhile Char.isDigit
  let rest1 := p.2.dropWhile Char.isDigit
  let fracDs := match rest1 with
    | '.' :: t => t.takeWhile Char.isDigit
    | _ => []
  let rest2 := match rest1 with
    | '.' :: t => t.dropWhile Char.isDigit
    | _ => rest1
  if intDs.isEmpty && fracDs.isEmpty then none
  else
    let mant : ℚ :=
      (natFromDigits intDs : ℚ) + (natFromDigits fracDs : ℚ) / (10 : ℚ) ^ fracDs.length
    let expo : Int := match rest2 with
      | e :: t =>
        if e == 'e' || e == 'E' then
          let q := signSplit t
          let eds := q.2.takeWhile Char.isDigit
          if eds.isEmpty then 0
          else if q.1 then -(natFromDigits eds : Int) else (natFromDigits eds : Int)
        else 0
      | [] => 0
    let v : ℚ := mant * (10 : ℚ) ^ expo
    some (if p.1 then -v else v)

/-- Characters removed by `amountStr.replace(/[$£€,\s]/g, "")`. -/
def stripAmountChar (c : Char) : Bool :=
  c == '$' || c == '£' || c == '€' || c == ',' || isJsSpace c

/-- The cleaned character list of `parseAmount`. -/
def cleanAmount (s : String) : List Char :=
  s.data.filter (fun c => !(stripAmountChar c))

/-- `cleaned.startsWith("(") && cleaned.endsWith(")")` handling: wrap in a
leading minus after dropping the parentheses (`"-" + cleaned.slice(1, -1)`). -/
def parenNeg (cs : List Char) : List Char :=
  if cs.head? == some '(' && cs.getLast? == some ')' then
    '-' :: (cs.drop 1).dropLast
  else cs

/-- `parseAmount` from the source, composed with the caller's `isNaN`
check (`none` = the row is rejected as an invalid amount). -/
def parseAmount (s : String) : Option ℚ :=
  jsParseFloat (String.mk (parenNeg (cleanAmount s)))

/-! ## Date parsing (parseDate, JS Date engine)

`new Date(string)` is an engine primitive.  It is modelled for the
grammars `parseDate` exercises: the ISO date-only form `YYYY-MM-DD`
(anchored at UTC midnight) and the legacy slash forms `M/D/YYYY` and
`YYYY/M/D` (anchored at local midnight).  A `Date` is its epoch-millisecond
timestamp; the environment's offset east of UTC, in minutes, is the
explicit parameter `tz`. -/

/-- Days from 1970-01-01 to the civil date `y-m-d` (proleptic Gregorian). -/
def daysFromCivil (y m d : Int) : Int :=
  let y2 := if m ≤ 2 then y - 1 else y
  let era := (if 0 ≤ y2 then y2 else y2 - 399) / 400
  let yoe := y2 - era * 400
  let mp := (m + 9) % 12
  let doy := (153 * mp + 2) / 5 + d - 1
  let doe := yoe * 365 + yoe / 4 - yoe / 100 + doy
  era * 146097 + doe - 719468

/-- Epoch milliseconds of UTC midnight on the civil date `y-m-d`. -/
def utcMidnightMs (y m d : Int) : Int :=
  daysFromCivil y m d * 86400000

/-- Strict ISO `YYYY-MM-DD` recognizer. -/
def parseIsoDate (cs : List Char) : Option (Int × Int × Int) :=
  match cs with
  | [y1, y2, y3, y4, h1, m1, m2, h2, d1, d2] =>
    if y1.isDigit && y2.isDigit && y3.isDigit && y4.isDigit &&
        h1 == '-' && m1.isDigit && m2.isDigit && h2 == '-' &&
        d1.isDigit && d2.isDigit then
      let m := natFromDigits [m1, m2]
      let d := natFromDigits [d1, d2]
      if 1 ≤ m && m ≤ 12 && 1 ≤ d && d ≤ 31 then
        some ((natFromDigits [y1, y2, y3, y4] : Int), (m : Int), (d : Int))
      else none
    else none
  | _ => none

/-- Legacy slash-separated recognizer: `M/D/YYYY` or `YYYY/M/D`. -/
def parseSlashDate (cs : List Char) : Option (Int × Int × Int) :=
  match cs.splitOn '/' with
  | [g1, g2, g3] =>
    if g1.all Char.isDigit && g2.all Char.isDigit && g3.all Char.isDigit &&
        !g1.isEmpty && !g2.isEmpty && !g3.isEmpty then
      if g1.length ≤ 2 && g2.length ≤ 2 && g3.length == 4 then
        let m := natFromDigits g1
        let d := natFromDigits g2
        if 1 ≤ m && m ≤ 12 && 1 ≤ d && d ≤ 31 then
          some ((natFromDigits g3 : Int), (m : Int), (d : Int))
        else none
      else if g1.length == 4 && g2.length ≤ 2 && g3.length ≤ 2 then
        let m := natFromDigits g2
        let d := natFromDigits g3
        if 1 ≤ m && m ≤ 12 && 1 ≤ d && d ≤ 31 then
          some ((natFromDigits g1 : Int), (m : Int), (d : Int))
        else none
      else none
    else none
  | _ => none

/-- Model of `new Date(string)` for the grammar fragments `parseDate`
uses: ISO date-only text is anchored at UTC midnight, legacy slash text at
local midnight (`tz` minutes east of UTC). -/
def jsNewDate (tz : Int) (s : String) : Option Int :=
  match parseIsoDate s.data with
  | some (y, m, d) => some (utcMidnightMs y m d)
  | none =>
    match parseSlashDate s.data with
    | some (y, m, d) => some (utcMidnightMs y m d - tz * 60000)
    | none => none

/-- The anchored triple-of-digit-groups shape shared by the two regexes of
`parseDate` (separators `/` or `-`, possibly mixed). -/
def matchTriple (cs : List Char) : Option (List Char × List Char × List Char) :=
  match (cs.map (fun c => if c == '-' then '/' else c)).splitOn '/' with
  | [g1, g2, g3] =>
    if g1.all Char.isDigit && g2.all Char.isDigit && g3.all Char.isDigit &&
        !g1.isEmpty && !g2.isEmpty && !g3.isEmpty then
      some (g1, g2, g3)
    else none
  | _ => none

/-- The template `${p1}/${p2}/${p3}` fed back to `new Date`. -/
def joinSlash (a b c : List Char) : String :=
  String.mk (a ++ '/' :: b ++ '/' :: c)

/-- The per-regex body of `parseDate`: try `p1/p2/p3`, then `p3/p1/p2`. -/
def tryBothOrders (tz : Int) (p1 p2 p3 : List Char) : Option Int :=
  match jsNewDate tz (joinSlash p1 p2 p3) with
  | some t => some t
  | none => jsNewDate tz (joinSlash p3 p1 p2)

/-- `parseDate` from the source: a direct `new Date(dateStr)` attempt,
then the two anchored numeric-triple regexes, each trying the captured
groups in both `p1/p2/p3` and `p3/p1/p2` order. -/
def parseDate (tz : Int) (s : String) : Option Int :=
  match jsNewDate tz s with
  | some t => some t
  | none =>
    match matchTriple s.data with
    | some (p1, p2, p3) =>
      if 1 ≤ p1.length && p1.length ≤ 2 && 1 ≤ p2.length && p2.length ≤ 2 &&
          p3.length == 4 then
        tryBothOrders tz p1 p2 p3
      else if p1.length == 4 && 1 ≤ p2.length && p2.length ≤ 2 &&
          1 ≤ p3.length && p3.length ≤ 2 then
        tryBothOrders tz p1 p2 p3
      else none
    | none => none

/-! ## Statement Parser (parseCSV, parseRow)

`Papa.parse` is an external library.  `parseCSV` is embedded from the
point where Papa has returned: `papaErrors` are the messages pushed from
`result.errors` (lines 58-62 of the source), `headers` is
`result.meta.fields` and `rows` is `result.data`, each row an association
list from (trimmed, lower-cased) header name to cell text. -/

/-- A parsed data row as Papa delivers it in header mode. -/
abbrev Row := List (String × String)

/-- JS `row[columnMap.field]`: indexing with a possibly-undefined key. -/
def jsIndex (r : Row) (k : Option String) : Option String :=
  k.bind (fun key => r.lookup key)

/-- `ParsedTransaction` from the source (`date` is the modelled epoch
timestamp of the `Date` object). -/
structure ParsedTransaction where
  date : Int
  merchant : String
  description : String
  amount : ℚ
  rawData : Row
deriving DecidableEq, Repr

/-- `CSVParseResult` from the source. -/
structure CSVParseResult where
  success : Bool
  transactions : List ParsedTransaction
  errors : List String
deriving DecidableEq, Repr

/-- `parseRow` from the source: `.ok none` is the silent skip for a falsy
date or amount cell, `.error` is a thrown row error (invalid date or
amount), `.ok (some t)` the parsed transaction. -/
def parseRow (tz : Int) (r : Row) (cm : ColumnMap) : Except String (Option ParsedTransaction) :=
  let merchant := jsOrStr (jsIndex r cm.merchant) "Unknown"
  let description := jsOrStr (jsIndex r cm.description) merchant
  match jsIndex r cm.date, jsIndex r cm.amount with
  | some ds, some as =>
    if ds == "" || as == "" then Except.ok none
    else
      match parseDate tz ds with
      | none => Except.error ("Invalid date format: " ++ ds)
      | some dt =>
        match parseAmount as with
        | none => Except.error ("Invalid amount: " ++ as)
        | some amt =>
          Except.ok (some
            { date := dt
              merchant := merchant.trim
              description := description.trim
              amount := amt
              rawData := r })
  | _, _ => Except.ok none

/-- The `result.data.forEach` loop of `parseCSV`: accumulates transactions
and row errors in source order; `idx` is the 0-based row index (errors cite
line `idx + 2`). -/
def rowLoop (tz : Int) (cm : ColumnMap) : Nat → List Row → List ParsedTransaction × List String
  | _, [] => ([], [])
  | idx, r :: rest =>
    let acc := rowLoop tz cm (idx + 1) rest
    match parseRow tz r cm with
    | Except.ok (some t) => (t :: acc.1, acc.2)
    | Except.ok none => acc
    | Except.error e => (acc.1, ("Row " ++ toString (idx + 2) ++ ": " ++ e) :: acc.2)

/-- The structural error message of `parseCSV`. -/
def requiredColsMsg : String :=
  "Could not detect required columns. Please ensure CSV has date and amount columns."

/-- `parseCSV` from the source, starting from Papa's output: report the
engine's errors, detect the column map, fail structurally when the date or
amount mapping is falsy, otherwise process every data row. -/
def parseCSV (tz : Int) (papaErrors : List String) (headers : List String)
    (rows : List Row) : CSVParseResult :=
  let cm := detectColumnMappings headers
  if !(truthyOpt cm.date) || !(truthyOpt cm.amount) then
    { success := false, transactions := [], errors := papaErrors ++ [requiredColsMsg] }
  else
    let acc := rowLoop tz cm 0 rows
    { success := (papaErrors ++ acc.2).isEmpty
      transactions := acc.1
      errors := papaErrors ++ acc.2 }

/-! ## Deduplication hash (generateHash)

`generateHash` concatenates the four fields with `-` separators, UTF-8
encodes the result (`TextEncoder`), digests it with SHA-256
(`crypto.subtle.digest`) and renders the digest bytes as two lowercase hex
digits each.  The digest primitive is implemented here (FIPS 180-4
SHA-256 over `Nat` words reduced mod 2 ^ 32); the amount argument enters
as its template-literal rendering, a string. -/

/-- Addition modulo 2 ^ 32. -/
def add32 (a b : Nat) : Nat := (a + b) % 4294967296

/-- Right rotation of a 32-bit word by `n`. -/
def rotr (n x : Nat) : Nat := (x / 2 ^ n + x % 2 ^ n * 2 ^ (32 - n)) % 4294967296

/-- Logical right shift of a 32-bit word by `n`. -/
def shr (n x : Nat) : Nat := x / 2 ^ n

/-- Three-way xor. -/
def xor3 (a b c : Nat) : Nat := Nat.xor (Nat.xor a b) c

/-- Complement of the low 32 bits. -/
def notW (x : Nat) : Nat := Nat.xor x 4294967295

/-- SHA-256 `Ch`. -/
def chW (e f g : Nat) : Nat := Nat.xor (Nat.land e f) (Nat.land (notW e) g)

/-- SHA-256 `Maj`. -/
def majW (a b c : Nat) : Nat := xor3 (Nat.land a b) (Nat.land a c) (Nat.land b c)

/-- SHA-256 Σ₀. -/
def bigSigma0 (x : Nat) : Nat := xor3 (rotr 2 x) (rotr 13 x) (rotr 22 x)

/-- SHA-256 Σ₁. -/
def bigSigma1 (x : Nat) : Nat := xor3 (rotr 6 x) (rotr 11 x) (rotr 25 x)

/-- SHA-256 σ₀. -/
def smallSigma0 (x : Nat) : Nat := xor3 (rotr 7 x) (rotr 18 x) (shr 3 x)

/-- SHA-256 σ₁. -/
def smallSigma1 (x : Nat) : Nat := xor3 (rotr 17 x) (rotr 19 x) (shr 10 x)

/-- Eight 32-bit words: the SHA-256 hash state (and round state). -/
structure Hash8 where
  h0 : Nat
  h1 : Nat
  h2 : Nat
  h3 : Nat
  h4 : Nat
  h5 : Nat
  h6 : Nat
  h7 : Nat
deriving DecidableEq, Repr

/-- SHA-256 initial hash value. -/
def initH : Hash8 :=
  ⟨1779033703, 3144134277, 1013904242, 2773480762,
    1359893119, 2600822924, 528734635, 1541459225⟩

/-- SHA-256 round constants. -/
def k64 : List Nat :=
  [1116352408, 1899447441, 3049323471, 3921009573,
   961987163, 1508970993, 2453635748, 2870763221,
   3624381080, 310598401, 607225278, 1426881987,
   1925078388, 2162078206, 2614888103, 3248222580,
   3835390401, 4022224774, 264347078, 604807628,
   770255983, 1249150122, 1555081692, 1996064986,
   2554220882, 2821834349, 2952996808, 3210313671,
   3336571891, 3584528711, 113926993, 338241895,
   666307205, 773529912, 1294757372, 1396182291,
   1695183700, 1986661051, 2177026350, 2456956037,
   2730485921, 2820302411, 3259730800, 3345764771,
   3516065817, 3600352804, 4094571909, 275423344,
   430227734, 506948616, 659060556, 883997877,
   958139571, 1322822218, 1537002063, 1747873779,
   1955562222, 2024104815, 2227730452, 2361852424,
   2428436474, 2756734187, 3204031479, 3329325298]

/-- Big-endian bytes of a 32-bit word. -/
def wordBytes (w : Nat) : List Nat :=
  [w / 16777216 % 256, w / 65536 % 256, w / 256 % 256, w % 256]

/-- Big-endian bytes of the 64-bit message length. -/
def lenBytes64 (n : Nat) : List Nat :=
  [n / 2 ^ 56 % 256, n / 2 ^ 48 % 256, n / 2 ^ 40 % 256, n / 2 ^ 32 % 256,
   n / 2 ^ 24 % 256, n / 2 ^ 16 % 256, n / 2 ^ 8 % 256, n % 256]

/-- SHA-256 padding: `0x80`, zeros to 56 mod 64, then the bit length. -/
def padMsg (msg : List Nat) : List Nat :=
  msg ++ 128 :: List.replicate ((64 - (msg.length + 9) % 64) % 64) 0 ++
    lenBytes64 (8 * msg.length)

/-- Big-endian 32-bit words of a byte list (groups of four). -/
def toWords : List Nat → List Nat
  | b0 :: b1 :: b2 :: b3 :: rest =>
    (b0 * 16777216 + b1 * 65536 + b2 * 256 + b3) :: toWords rest
  | _ => []

/-- Split a byte list into 64-byte blocks. -/
def toBlocks : List Nat → List (List Nat)
  | [] => []
  | b :: rest => ((b :: rest).take 64) :: toBlocks (rest.drop 63)
termination_by l => l.length
decreasing_by simp [List.length_drop]; omega

/-- One extension step of the message schedule: append
`σ₁(w[n-2]) + w[n-7] + σ₀(w[n-15]) + w[n-16]` at index `n`. -/
def scheduleStep (w : List Nat) : List Nat :=
  w ++ [add32 (add32 (w.getD (w.length - 16) 0) (smallSigma0 (w.getD (w.length - 15) 0)))
          (add32 (w.getD (w.length - 7) 0) (smallSigma1 (w.getD (w.length - 2) 0)))]

/-- Extend 16 schedule words to 64. -/
def fullSchedule (w : List Nat) : List Nat := scheduleStep^[48] w

/-- One SHA-256 compression round for a `(k, w)` pair. -/
def roundStep (st : Hash8) (kw : Nat × Nat) : Hash8 :=
  let t1 := add32 st.h7 (add32 (bigSigma1 st.h4)
    (add32 (chW st.h4 st.h5 st.h6) (add32 kw.1 kw.2)))
  let t2 := add32 (bigSigma0 st.h0) (majW st.h0 st.h1 st.h2)
  ⟨add32 t1 t2, st.h0, st.h1, st.h2, add32 st.h3 t1, st.h4, st.h5, st.h6⟩

/-- Compress one 64-byte block into the running hash state. -/
def processBlock (st : Hash8) (block : List Nat) : Hash8 :=
  let w := fullSchedule (toWords block)
  let f := (k64.zip w).foldl roundStep st
  ⟨add32 st.h0 f.h0, add32 st.h1 f.h1, add32 st.h2 f.h2, add32 st.h3 f.h3,
    add32 st.h4 f.h4, add32 st.h5 f.h5, add32 st.h6 f.h6, add32 st.h7 f.h7⟩

/-- SHA-256 digest (32 bytes) of a byte list. -/
def sha256Bytes (msg : List Nat) : List Nat :=
  let hf := (toBlocks (padMsg msg)).foldl processBlock initH
  wordBytes hf.h0 ++ wordBytes hf.h1 ++ wordBytes hf.h2 ++ wordBytes hf.h3 ++
    wordBytes hf.h4 ++ wordBytes hf.h5 ++ wordBytes hf.h6 ++ wordBytes hf.h7

/-- UTF-8 bytes of one character (the `TextEncoder` encoding). -/
def charUtf8 (c : Char) : List Nat :=
  let n := c.toNat
  if n < 128 then [n]
  else if n < 2048 then [192 + n / 64, 128 + n % 64]
  else if n < 65536 then [224 + n / 4096, 128 + n / 64 % 64, 128 + n % 64]
  else [240 + n / 262144, 128 + n / 4096 % 64, 128 + n / 64 % 64, 128 + n % 64]

/-- `new TextEncoder().encode(s)`. -/
def utf8Bytes (s : String) : List Nat :=
  (s.data.map charUtf8).flatten

/-- The lowercase hexadecimal digits. -/
def hexChars : List Char :=
  "0123456789abcdef".data

/-- Digit `n` as a lowercase hex character. -/
def hexDigit (n : Nat) : Char := hexChars.getD n '0'

/-- `b.toString(16).padStart(2, "0")` for a byte. -/
def byteToHex (b : Nat) : List Char :=
  if b < 16 then ['0', hexDigit b] else [hexDigit (b / 16), hexDigit (b % 16)]

/-- `hashArray.map(...).join("")`: the digest bytes in lowercase hex. -/
def hexOfBytes : List Nat → List Char
  | [] => []
  | b :: rest => byteToHex b ++ hexOfBytes rest

/-- The pre-digest string `${date}-${amount}-${merchant}-${description}`
of `generateHash` (the amount as its template rendering). -/
def hashInput (date amount merchant description : String) : String :=
  date ++ "-" ++ amount ++ "-" ++ merchant ++ "-" ++ description

/-- `generateHash` from the source: SHA-256 of the UTF-8 concatenation,
rendered as lowercase hex. -/
def generateHash (date amount merchant description : String) : String :=
  String.mk (hexOfBytes (sha256Bytes (utf8Bytes (hashInput date amount merchant description))))

/-! ## Categorizer (categorizeTransaction and helpers)

The environment credentials and the remote provider are external:
`anthropicKey` / `openaiKey` model the two `process.env` reads, `remote`
models the provider call (prompt build, fetch, response-envelope field
access) up to the text handed to `parseCategorizationResponse` —
`Except.error` is a throw caught by the `try/catch` of
`categorizeTransaction`.  `JSON.parse` is the parameter `jsonParse`.
The response model covers the expected shape: string-valued `category` /
`subcategory` / `explanation` and numeric `confidence`. -/

/-- JSON values (`JSON.parse` output). -/
inductive Json where
  | null : Json
  | bool (b : Bool) : Json
  | num (q : ℚ) : Json
  | str (s : String) : Json
  | arr (elems : List Json) : Json
  | obj (fields : List (String × Json)) : Json

/-- JS property access `j[k]` on a parsed JSON value (`undefined` = `none`). -/
def jsGet (j : Json) (k : String) : Option Json :=
  match j with
  | Json.obj fields => fields.lookup k
  | _ => none

/-- A string-valued property, `none` when absent or not a string. -/
def jsStrField (j : Json) (k : String) : Option String :=
  match jsGet j k with
  | some (Json.str s) => some s
  | _ => none

/-- `CategorizationResult` from the source.  The TS interface declares
`category: string`, but `parseCategorizationResponse` stores
`result.category` unvalidated, so the model keeps it optional
(`none` = `undefined`). -/
structure CategorizationResult where
  category : Option String
  subcategory : Option String
  confidence : ℚ
  explanation : String
deriving DecidableEq, Repr

/-- `result.confidence || 0.5`: a JS-falsy confidence (absent, `null`, or
the number 0) is replaced by 0.5. -/
def confOrHalf (v : Option Json) : ℚ :=
  match v with
  | some (Json.num q) => if q = 0 then 1 / 2 else q
  | _ => 1 / 2

/-- `result.subcategory || undefined` for the expected string-or-null
shape: falsy (absent, `null`, `""`) becomes `undefined`. -/
def subcatField (j : Json) : Option String :=
  match jsGet j "subcategory" with
  | some (Json.str s) => if s = "" then none else some s
  | _ => none

/-- `result.explanation || "AI categorization"` for the expected
string shape. -/
def explField (j : Json) : String :=
  match jsStrField j "explanation" with
  | some s => if s = "" then "AI categorization" else s
  | none => "AI categorization"

/-- Lines 181-186 of the categorizer: build the result from the parsed
JSON object, clamping `confidence` into `[0, 1]` after the `|| 0.5`
default. -/
def parseCategorizationFromJson (j : Json) : CategorizationResult :=
  { category := jsStrField j "category"
    subcategory := subcatField j
    confidence := max 0 (min 1 (confOrHalf (jsGet j "confidence")))
    explanation := explField j }

/-- The catch-branch literal of `parseCategorizationResponse`. -/
def parseFailureResult : CategorizationResult :=
  { category := some "Uncategorized"
    subcategory := none
    confidence := 0
    explanation := "Failed to parse AI response" }

/-- The opening brace character. -/
def openBrace : Char := Char.ofNat 123

/-- The closing brace character. -/
def closeBrace : Char := Char.ofNat 125

/-- The regex match `text.match(/\x7b[\s\S]*\x7d/)`: leftmost-greedy, so
from the first opening brace to the last closing brace, provided the
latter comes later. -/
def extractJson (s : String) : Option String :=
  let cs := s.data
  match cs.findIdx? (fun c => c == openBrace),
      cs.reverse.findIdx? (fun c => c == closeBrace) with
  | some i, some k =>
    let j := cs.length - 1 - k
    if i < j then some (String.mk ((cs.drop i).take (j - i + 1))) else none
  | _, _ => none

/-- `parseCategorizationResponse` from the source: extract the brace span,
`JSON.parse` it, build the result; any failure is caught inside and
yields `parseFailureResult` (the function itself never throws). -/
def parseCategorizationResponse (jsonParse : String → Option Json) (text : String) :
    CategorizationResult :=
  match extractJson text with
  | none => parseFailureResult
  | some s =>
    match jsonParse s with
    | none => parseFailureResult
    | some j => parseCategorizationFromJson j

/-- `ruleBasedCategorization` from the source: ordered keyword groups over
the lower-cased `merchant ++ " " ++ description`, then the positive-amount
income heuristic, else Uncategorized. -/
def ruleBasedCategorization (merchant description : String) (amount : ℚ) :
    CategorizationResult :=
  let text := (lowerStr (merchant ++ " " ++ description)).data
  if strIncludes "grocery".data text || strIncludes "market".data text ||
      strIncludes "whole foods".data text || strIncludes "trader joe".data text then
    { category := some "Groceries", subcategory := none, confidence := 7 / 10
      explanation := "Keyword match: grocery store" }
  else if strIncludes "restaurant".data text || strIncludes "cafe".data text ||
      strIncludes "coffee".data text || strIncludes "food".data text then
    { category := some "Dining", subcategory := none, confidence := 6 / 10
      explanation := "Keyword match: dining establishment" }
  else if strIncludes "gas".data text || strIncludes "fuel".data text ||
      strIncludes "shell".data text || strIncludes "chevron".data text then
    { category := some "Transport", subcategory := some "Gas", confidence := 7 / 10
      explanation := "Keyword match: gas station" }
  else if strIncludes "netflix".data text || strIncludes "spotify".data text ||
      strIncludes "subscription".data text || strIncludes "hulu".data text then
    { category := some "Subscriptions", subcategory := none, confidence := 8 / 10
      explanation := "Keyword match: subscription service" }
  else if 0 < amount then
    { category := some "Income", subcategory := none, confidence := 1 / 2
      explanation := "Positive amount suggests income" }
  else
    { category := some "Uncategorized", subcategory := none, confidence := 0
      explanation := "No matching rules found" }

/-- `categorizeTransaction` from the source: with no truthy credential,
rule-based fallback; otherwise the provider call, whose thrown errors are
caught and recovered by the fallback, and whose response text goes through
`parseCategorizationResponse`. -/
def categorizeTransaction (anthropicKey openaiKey : Option String)
    (remote : Except Unit String) (jsonParse : String → Option Json)
    (merchant description : String) (amount : ℚ) : CategorizationResult :=
  let apiKey := jsOrOpt anthropicKey openaiKey
  if !(truthyOpt apiKey) then ruleBasedCategorization merchant description amount
  else
    match remote with
    | Except.error _ => ruleBasedCategorization merchant description amount
    | Except.ok text => parseCategorizationResponse jsonParse text

/-! ## Theorems -/

/-- A numeric-literal prefix is present: after optional whitespace and an
optional sign, the text starts with a digit, or with a dot followed by a
digit.  Stated independently of `jsParseFloat` to characterize when the
amount is rejected. -/
def startsNumeric (cs : List Char) : Bool :=
  match (signSplit (cs.dropWhile isJsSpace)).2 with
  | [] => false
  | '.' :: t =>
    match t with
    | [] => false
    | c :: _ => c.isDigit
  | c :: _ => c.isDigit

/-- `parseFloat` yields `NaN` exactly when there is no numeric prefix:
trailing residue after a valid prefix is ignored. -/
theorem jsParseFloat_none_iff (s : String) :
    jsParseFloat s = none ↔ startsNumeric s.data = false := by
  unfold jsParseFloat startsNumeric
  cases h : (signSplit (s.data.dropWhile isJsSpace)).2 with
  | nil => simp [h]
  | cons c u =>
    by_cases hc : c = '.'
    · subst hc
      cases u with
      | nil =>
        simp [h, List.takeWhile_cons, List.dropWhile_cons,
          (by decide : ('.' : Char).isDigit = false)]
      | cons c2 u2 =>
        by_cases h2 : c2.isDigit
        · simp [h, List.takeWhile_cons, List.dropWhile_cons,
            (by decide : ('.' : Char).isDigit = false), h2]
        · simp [h, List.takeWhile_cons, List.dropWhile_cons,
            (by decide : ('.' : Char).isDigit = false), h2]
    · by_cases hd : c.isDigit
      · simp [h, List.takeWhile_cons, List.dropWhile_cons, hd]
      · simp [h, List.takeWhile_cons, List.dropWhile_cons, hd, hc]

/-- C7 counterexample: a non-numeric residue after a valid numeric prefix
does NOT make the amount invalid — `parseAmount "87.50x"` succeeds with
87.5, where the claim requires a `ParseError`. -/
theorem c7_residue_counterexample :
    parseAmount "87.50x" = some (87.5 : ℚ) ∧ parseAmount "87.50x" ≠ none := by
  have h : parseAmount "87.50x"
      = some ((((87 : ℕ) : ℚ) + ((50 : ℕ) : ℚ) / (10 : ℚ) ^ (2 : ℕ)) * (10 : ℚ) ^ (0 : ℤ)) := rfl
  have hv : parseAmount "87.50x" = some (87.5 : ℚ) := by
    rw [h]
    simp only [Option.some_inj]
    norm_num
  exact ⟨hv, by rw [hv]; simp⟩

/-- C7 (amended): currency symbols, commas and whitespace are stripped, a
fully parenthesized cleaned string is negated, and the remainder is parsed
as a JS `parseFloat` decimal — the amount is invalid exactly when the
cleaned, paren-resolved text lacks a numeric prefix; residue after a valid
numeric prefix is ignored rather than invalidating the amount.  The five
listed examples hold. -/
theorem c7_amount_policy_amended :
    parseAmount "-$87.50" = some (-87.5 : ℚ) ∧
    parseAmount "$87.50" = some (87.5 : ℚ) ∧
    parseAmount "(87.50)" = some (-87.5 : ℚ) ∧
    parseAmount "1,234.56" = some (1234.56 : ℚ) ∧
    parseAmount "-1,234.56" = some (-1234.56 : ℚ) ∧
    ∀ s : String, parseAmount s = none ↔
      startsNumeric (parenNeg (cleanAmount s)) = false := by
  have h1 : parseAmount "-$87.50"
      = some (-((((87 : ℕ) : ℚ) + ((50 : ℕ) : ℚ) / (10 : ℚ) ^ (2 : ℕ)) * (10 : ℚ) ^ (0 : ℤ))) := rfl
  have h2 : parseAmount "$87.50"
      = some ((((87 : ℕ) : ℚ) + ((50 : ℕ) : ℚ) / (10 : ℚ) ^ (2 : ℕ)) * (10 : ℚ) ^ (0 : ℤ)) := rfl
  have h3 : parseAmount "(87.50)"
      = some (-((((87 : ℕ) : ℚ) + ((50 : ℕ) : ℚ) / (10 : ℚ) ^ (2 : ℕ)) * (10 : ℚ) ^ (0 : ℤ))) := rfl
  have h4 : parseAmount "1,234.56"
      = some ((((1234 : ℕ) : ℚ) + ((56 : ℕ) : ℚ) / (10 : ℚ) ^ (2 : ℕ)) * (10 : ℚ) ^ (0 : ℤ)) := rfl
  have h5 : parseAmount "-1,234.56"
      = some (-((((1234 : ℕ) : ℚ) + ((56 : ℕ) : ℚ) / (10 : ℚ) ^ (2 : ℕ)) * (10 : ℚ) ^ (0 : ℤ))) := rfl
  refine ⟨by rw [h1]; simp only [Option.some_inj]; norm_num,
    by rw [h2]; simp only [Option.some_inj]; norm_num,
    by rw [h3]; simp only [Option.some_inj]; norm_num,
    by rw [h4]; simp only [Option.some_inj]; norm_num,
    by rw [h5]; simp only [Option.some_inj]; norm_num, ?_⟩
  intro s
  unfold parseAmount
  rw [jsParseFloat_none_iff]

/-- C9 counterexample: in an environment 300 minutes west of UTC,
`"2024-01-15"` parses to UTC midnight while `"01/15/2024"` parses to local
midnight — two different timestamps, so the three formats do not
normalize to one neutral, time-zone-unambiguous date value. -/
theorem c9_timezone_counterexample :
    parseDate (-300) "2024-01-15" = some 1705276800000 ∧
    parseDate (-300) "01/15/2024" = some 1705294800000 ∧
    parseDate (-300) "2024-01-15" ≠ parseDate (-300) "01/15/2024" := by
  refine ⟨by decide, by decide, by decide⟩

/-- C9 (amended): all three strings parse successfully and denote calendar
date 2024-01-15, but as timestamps: the ISO form is anchored at UTC
midnight, the two US forms at local midnight (equal to each other for
every offset, and to the ISO form only when the offset is zero). -/
theorem c9_date_normalization_amended : ∀ tz : Int,
    parseDate tz "2024-01-15" = some (utcMidnightMs 2024 1 15) ∧
    parseDate tz "01/15/2024" = some (utcMidnightMs 2024 1 15 - tz * 60000) ∧
    parseDate tz "01-15-2024" = parseDate tz "01/15/2024" := by
  intro tz
  refine ⟨rfl, rfl, rfl⟩

/-- C2 counterexample: for the `merchant` field and headers
`["payee", "merchant"]`, the code picks `"payee"` (first header matching
any variant) while the claimed variant-major rule picks `"merchant"`
(first variant `"merchant"` matches that header). -/
theorem c2_variant_priority_counterexample :
    (detectColumnMappings ["payee", "merchant"]).merchant = some "payee" ∧
    variantMajorPick merchantVariants ["payee", "merchant"] = some "merchant" ∧
    (detectColumnMappings ["payee", "merchant"]).merchant ≠
      variantMajorPick merchantVariants ["payee", "merchant"] := by
  refine ⟨by decide, by decide, by decide⟩

/-- The selected header is the first matching one: `r` is `none` exactly
when no header matches, and `some h` exactly when `h` matches and every
earlier header does not. -/
def firstMatchChoice (variants : List String) (headers : List String)
    (r : Option String) : Prop :=
  (r = none → ∀ h ∈ headers, headerMatches variants h = false) ∧
  (∀ h, r = some h → ∃ pre suf, headers = pre ++ h :: suf ∧
    headerMatches variants h = true ∧ ∀ g ∈ pre, headerMatches variants g = false)

/-- `List.find?` returns the first witness, split into prefix and suffix. -/
theorem find?_first_split (p : String → Bool) :
    ∀ (l : List String) (h : String), l.find? p = some h →
      ∃ pre suf, l = pre ++ h :: suf ∧ p h = true ∧ ∀ g ∈ pre, p g = false := by
  intro l
  induction l with
  | nil => intro h hf; simp at hf
  | cons a t ih =>
    intro h hf
    by_cases hp : p a
    · rw [List.find?_cons_of_pos _ hp] at hf
      obtain rfl : a = h := by injection hf
      exact ⟨[], t, rfl, hp, by simp⟩
    · rw [List.find?_cons_of_neg _ (by simpa using hp)] at hf
      obtain ⟨pre, suf, rfl, hh, hpre⟩ := ih h hf
      refine ⟨a :: pre, suf, rfl, hh, ?_⟩
      intro g hg
      rcases List.mem_cons.mp hg with rfl | hg
      · simpa using hp
      · exact hpre g hg

/-- C2 (amended): for every header list and every canonical field, the
Column Mapper scans the headers in their original order and selects the
first header whose lower-cased text contains any of the field's variants;
the variant list only decides whether a header matches, it carries no
priority among headers. -/
theorem c2_header_major_amended : ∀ headers : List String,
    firstMatchChoice dateVariants headers (detectColumnMappings headers).date ∧
    firstMatchChoice merchantVariants headers (detectColumnMappings headers).merchant ∧
    firstMatchChoice descriptionVariants headers (detectColumnMappings headers).description ∧
    firstMatchChoice amountVariants headers (detectColumnMappings headers).amount := by
  intro headers
  have base : ∀ vs : List String, firstMatchChoice vs headers (findHeader vs headers) := by
    intro vs
    constructor
    · intro hn h hmem
      have := List.find?_eq_none.mp hn h hmem
      simpa using this
    · intro h hf
      exact find?_first_split (headerMatches vs) headers h hf
  exact ⟨base dateVariants, base merchantVariants, base descriptionVariants, base amountVariants⟩

/-- C2 amended witness at a concrete header list. -/
theorem c2_header_major_amended_witness :
    firstMatchChoice merchantVariants ["date", "merchant"]
      (detectColumnMappings ["date", "merchant"]).merchant :=
  (c2_header_major_amended ["date", "merchant"]).2.1

/-- C6 counterexample: when the CSV engine has already reported a
structural row problem and the headers lack a date column, the failure
carries two errors, not exactly one. -/
theorem c6_single_error_counterexample :
    (parseCSV 0 ["Row 1: Too many fields"] ["name", "value"] []).success = false ∧
    (parseCSV 0 ["Row 1: Too many fields"] ["name", "value"] []).transactions = [] ∧
    (parseCSV 0 ["Row 1: Too many fields"] ["name", "value"] []).errors.length = 2 := by
  refine ⟨by decide, by decide, by decide⟩

/-- C6 (amended): whenever the detected date or amount mapping is falsy,
`parseCSV` returns `success = false`, no transactions, and appends exactly
one explanatory error after any errors the CSV engine already reported
(so exactly one error when the engine reported none); no data row is
processed. -/
theorem c6_structural_error_amended (tz : Int) (papaErrors : List String)
    (headers : List String) (rows : List Row)
    (h : truthyOpt (detectColumnMappings headers).date = false ∨
      truthyOpt (detectColumnMappings headers).amount = false) :
    parseCSV tz papaErrors headers rows =
      { success := false, transactions := [], errors := papaErrors ++ [requiredColsMsg] } := by
  unfold parseCSV
  rcases h with h | h <;> simp [h]

/-- C6 amended witness: a concrete header list without a date column. -/
theorem c6_structural_error_amended_witness :
    parseCSV 0 [] ["name", "value"] [] =
      { success := false, transactions := [], errors := [requiredColsMsg] } :=
  c6_structural_error_amended 0 [] ["name", "value"] [] (Or.inl (by decide))

/-- A data row whose mapped date and amount cells are both present and
non-empty (the rows `parseRow` does not silently skip). -/
def rowHasRequired (cm : ColumnMap) (r : Row) : Bool :=
  truthyOpt (jsIndex r cm.date) && truthyOpt (jsIndex r cm.amount)

/-- `parseRow` skips a row (`ok none`) exactly when a required cell is
falsy; otherwise it yields a transaction or throws a row error. -/
theorem parseRow_skip_iff (tz : Int) (r : Row) (cm : ColumnMap) :
    parseRow tz r cm = Except.ok none ↔ rowHasRequired cm r = false := by
  unfold parseRow rowHasRequired
  cases hd : jsIndex r cm.date with
  | none => simp [truthyOpt]
  | some ds =>
    cases ha : jsIndex r cm.amount with
    | none => simp [truthyOpt]
    | some as =>
      simp only [truthyOpt]
      by_cases hds : ds = ""
      · simp [hds]
      · by_cases has : as = ""
        · simp [hds, has]
        · simp only [hds, has, beq_iff_eq, if_neg, Bool.or_eq_true, or_self,
            Bool.not_eq_true]
          cases hpd : parseDate tz ds with
          | none => simp [hds, has]
          | some dt =>
            cases hpa : parseAmount as with
            | none => simp [hds, has]
            | some amt => simp [hds, has]

/-- Every non-skipped row contributes exactly one output — a transaction
or a row error; skipped rows contribute to neither list. -/
theorem rowLoop_count (tz : Int) (cm : ColumnMap) :
    ∀ (rows : List Row) (idx : Nat),
      (rowLoop tz cm idx rows).1.length + (rowLoop tz cm idx rows).2.length
        = rows.countP (rowHasRequired cm) := by
  intro rows
  induction rows with
  | nil => intro idx; simp [rowLoop]
  | cons r rest ih =>
    intro idx
    simp only [rowLoop, List.countP_cons]
    cases hp : parseRow tz r cm with
    | error e =>
      have hr : rowHasRequired cm r = true := by
        by_contra hfalse
        have : rowHasRequired cm r = false := by simpa using hfalse
        have := (parseRow_skip_iff tz r cm).mpr this
        rw [hp] at this
        exact Except.noConfusion this
      have h2 := ih (idx + 1)
      simp [hr]
      omega
    | ok o =>
      cases o with
      | none =>
        have hr : rowHasRequired cm r = false := (parseRow_skip_iff tz r cm).mp hp
        simpa [hr] using ih (idx + 1)
      | some t =>
        have hr : rowHasRequired cm r = true := by
          by_contra hfalse
          have : rowHasRequired cm r = false := by simpa using hfalse
          have := (parseRow_skip_iff tz r cm).mpr this
          rw [hp] at this
          simp at this
        have h2 := ih (idx + 1)
        simp [hr]
        omega

/-- C1: for every input whose column mapping yields date and amount, the
number of transactions plus the number of row-level errors equals the
number of data rows whose mapped date and amount cells are both
non-empty; rows with an empty required cell appear in neither list. -/
theorem c1_row_accounting (tz : Int) (headers : List String) (rows : List Row)
    (hd : truthyOpt (detectColumnMappings headers).date = true)
    (ha : truthyOpt (detectColumnMappings headers).amount = true) :
    (parseCSV tz [] headers rows).transactions.length
        + (parseCSV tz [] headers rows).errors.length
      = rows.countP (rowHasRequired (detectColumnMappings headers)) := by
  unfold parseCSV
  simp [hd, ha, rowLoop_count]

/-- C1 witness: a two-row file, one full row and one with an empty date
cell; one transaction, zero errors, count one. -/
theorem c1_row_accounting_witness :
    (parseCSV 0 [] ["date", "amount"]
        [[("date", "2024-01-15"), ("amount", "-10")],
         [("date", ""), ("amount", "5")]]).transactions.length
      + (parseCSV 0 [] ["date", "amount"]
        [[("date", "2024-01-15"), ("amount", "-10")],
         [("date", ""), ("amount", "5")]]).errors.length
      = ([[("date", "2024-01-15"), ("amount", "-10")],
          [("date", ""), ("amount", "5")]] : List Row).countP
          (rowHasRequired (detectColumnMappings ["date", "amount"])) :=
  c1_row_accounting 0 ["date", "amount"]
    [[("date", "2024-01-15"), ("amount", "-10")], [("date", ""), ("amount", "5")]]
    (by decide) (by decide)

/-- Strings with equal character data are equal. -/
theorem strExt {p q : String} (h : p.data = q.data) : p = q := by
  cases p; cases q; exact congrArg String.mk h

/-- The pre-digest string, as a character list. -/
theorem hashInput_data (d a m x : String) : (hashInput d a m x).data
    = d.data ++ '-' :: (a.data ++ '-' :: (m.data ++ '-' :: x.data)) := by
  simp [hashInput, List.append_assoc]

/-- Lists joined by a delimiter occurring in neither left part agree
component-wise. -/
theorem append_delim_inj (c : Char) :
    ∀ (a a' b b' : List Char), c ∉ a → c ∉ a' →
      a ++ c :: b = a' ++ c :: b' → a = a' ∧ b = b' := by
  intro a
  induction a with
  | nil =>
    intro a' b b' _ ha' he
    cases a' with
    | nil => simpa using he
    | cons y u =>
      simp only [List.nil_append, List.cons_append, List.cons.injEq] at he
      obtain ⟨h1, -⟩ := he
      subst h1
      exact absurd (List.mem_cons_self _ _) ha'
  | cons x t ih =>
    intro a' b b' ha ha' he
    cases a' with
    | nil =>
      simp only [List.cons_append, List.nil_append, List.cons.injEq] at he
      obtain ⟨h1, -⟩ := he
      subst h1
      exact absurd (List.mem_cons_self _ _) ha
    | cons y u =>
      simp only [List.cons_append, List.cons.injEq] at he
      obtain ⟨rfl, he2⟩ := he
      obtain ⟨rfl, rfl⟩ := ih u b b' (fun hm => ha (List.mem_cons_of_mem _ hm))
        (fun hm => ha' (List.mem_cons_of_mem _ hm)) he2
      exact ⟨rfl, rfl⟩

/-- C4 counterexample: two distinct field tuples whose `-`-joined
pre-digest strings coincide — the delimiter scheme is ambiguous, because
the fields themselves may contain `-`. -/
theorem c4_delimiter_counterexample :
    hashInput "2024-01-15" "50" "a-b" "c" = hashInput "2024-01-15" "50" "a" "b-c" ∧
    (("2024-01-15", "50", "a-b", "c") : String × String × String × String)
      ≠ ("2024-01-15", "50", "a", "b-c") := ⟨rfl, by decide⟩

/-- C4 (amended): the pre-digest encoding is injective only on tuples
whose rendered fields contain no `-`; since ISO dates, negative amounts
and hyphenated merchant or description text do contain `-`, distinct
tuples can collide before hashing. -/
theorem c4_encoding_injective_amended (d1 a1 m1 x1 d2 a2 m2 x2 : String)
    (hd1 : '-' ∉ d1.data) (ha1 : '-' ∉ a1.data) (hm1 : '-' ∉ m1.data) (_hx1 : '-' ∉ x1.data)
    (hd2 : '-' ∉ d2.data) (ha2 : '-' ∉ a2.data) (hm2 : '-' ∉ m2.data) (_hx2 : '-' ∉ x2.data)
    (he : hashInput d1 a1 m1 x1 = hashInput d2 a2 m2 x2) :
    d1 = d2 ∧ a1 = a2 ∧ m1 = m2 ∧ x1 = x2 := by
  have hdata : d1.data ++ '-' :: (a1.data ++ '-' :: (m1.data ++ '-' :: x1.data))
      = d2.data ++ '-' :: (a2.data ++ '-' :: (m2.data ++ '-' :: x2.data)) := by
    have h0 := congrArg String.data he
    rw [hashInput_data, hashInput_data] at h0
    exact h0
  obtain ⟨hdd, rest1⟩ := append_delim_inj '-' _ _ _ _ hd1 hd2 hdata
  obtain ⟨haa, rest2⟩ := append_delim_inj '-' _ _ _ _ ha1 ha2 rest1
  obtain ⟨hmm, hxx⟩ := append_delim_inj '-' _ _ _ _ hm1 hm2 rest2
  exact ⟨strExt hdd, strExt haa, strExt hmm, strExt hxx⟩

/-- C4 amended witness at concrete dash-free fields. -/
theorem c4_encoding_injective_amended_witness :
    ("20240115" : String) = "20240115" ∧ ("50" : String) = "50" ∧
      ("shop" : String) = "shop" ∧ ("x" : String) = "x" :=
  c4_encoding_injective_amended "20240115" "50" "shop" "x" "20240115" "50" "shop" "x"
    (by decide) (by decide) (by decide) (by decide)
    (by decide) (by decide) (by decide) (by decide) rfl

/-- A byte renders as exactly two hex characters. -/
theorem byteToHex_length (b : Nat) : (byteToHex b).length = 2 := by
  unfold byteToHex
  split <;> simp

/-- The hex rendering has two characters per byte. -/
theorem hexOfBytes_length : ∀ bs : List Nat, (hexOfBytes bs).length = 2 * bs.length := by
  intro bs
  induction bs with
  | nil => simp [hexOfBytes]
  | cons b rest ih =>
    simp [hexOfBytes, byteToHex_length, ih]
    ring

/-- The digest is 32 bytes for every message. -/
theorem sha256Bytes_length (msg : List Nat) : (sha256Bytes msg).length = 32 := by
  unfold sha256Bytes
  simp [wordBytes]

/-- `getD` yields the default or a member. -/
theorem getD_self_or_mem (l : List Char) (n : Nat) (d : Char) :
    l.getD n d = d ∨ l.getD n d ∈ l := by
  induction l generalizing n with
  | nil => simp
  | cons a t ih =>
    cases n with
    | zero => right; simp
    | succ k =>
      rcases ih k with h | h
      · left; simpa using h
      · right; simp [List.getD_cons_succ]; right; simpa using h

/-- Hex digits are lowercase hex characters. -/
theorem hexDigit_mem (n : Nat) : hexDigit n ∈ hexChars := by
  unfold hexDigit
  rcases getD_self_or_mem hexChars n '0' with h | h
  · rw [h]; decide
  · exact h

/-- Both characters of a rendered byte are lowercase hex. -/
theorem byteToHex_subset (b : Nat) : ∀ c ∈ byteToHex b, c ∈ hexChars := by
  intro c hc
  unfold byteToHex at hc
  split at hc <;> simp at hc <;> rcases hc with rfl | rfl
  · decide
  · exact hexDigit_mem _
  · exact hexDigit_mem _
  · exact hexDigit_mem _

/-- Every character of the hex rendering is lowercase hex. -/
theorem hexOfBytes_subset : ∀ (bs : List Nat) (c : Char), c ∈ hexOfBytes bs → c ∈ hexChars := by
  intro bs
  induction bs with
  | nil => simp [hexOfBytes]
  | cons b rest ih =>
    intro c hc
    simp only [hexOfBytes, List.mem_append] at hc
    rcases hc with hc | hc
    · exact byteToHex_subset b c hc
    · exact ih c hc

/-- C5: `generateHash` is a pure function — equal input tuples give equal
outputs — and its output is the 64-character lowercase-hex rendering of a
256-bit digest. -/
theorem c5_hash_deterministic_hex (d a m x d2 a2 m2 x2 : String)
    (h1 : d = d2) (h2 : a = a2) (h3 : m = m2) (h4 : x = x2) :
    generateHash d a m x = generateHash d2 a2 m2 x2 ∧
    (generateHash d a m x).length = 64 ∧
    ∀ c ∈ (generateHash d a m x).data, c ∈ hexChars := by
  subst h1; subst h2; subst h3; subst h4
  refine ⟨rfl, ?_, ?_⟩
  · show (String.mk (hexOfBytes (sha256Bytes _))).length = 64
    simp [String.length, hexOfBytes_length, sha256Bytes_length]
  · intro c hc
    exact hexOfBytes_subset _ c hc

/-- C5 witness at a concrete tuple. -/
theorem c5_hash_deterministic_hex_witness :
    generateHash "2024-01-15" "-87.5" "Shell" "Fuel"
        = generateHash "2024-01-15" "-87.5" "Shell" "Fuel" ∧
    (generateHash "2024-01-15" "-87.5" "Shell" "Fuel").length = 64 ∧
    ∀ c ∈ (generateHash "2024-01-15" "-87.5" "Shell" "Fuel").data, c ∈ hexChars :=
  c5_hash_deterministic_hex "2024-01-15" "-87.5" "Shell" "Fuel"
    "2024-01-15" "-87.5" "Shell" "Fuel" rfl rfl rfl rfl

/-- C3: when the provider call succeeds but its text contains no JSON
object, `categorizeTransaction` does NOT fall back to rule-based
categorization: `parseCategorizationResponse` swallows the failure and the
caller receives the Uncategorized literal, different from the rule-based
result the claim (and the repository's own test) requires. -/
theorem c3_parse_failure_returns_uncategorized :
    ∀ jsonParse : String → Option Json,
      categorizeTransaction (some "test-api-key") none
          (Except.ok "Invalid response without JSON") jsonParse "Whole Foods" "Grocery" (-50)
        = parseFailureResult ∧
      ruleBasedCategorization "Whole Foods" "Grocery" (-50)
        = { category := some "Groceries", subcategory := none, confidence := 7 / 10,
            explanation := "Keyword match: grocery store" } ∧
      parseFailureResult ≠ ruleBasedCategorization "Whole Foods" "Grocery" (-50) := by
  intro jsonParse
  have hx : extractJson "Invalid response without JSON" = none := by decide
  have h1 : categorizeTransaction (some "test-api-key") none
      (Except.ok "Invalid response without JSON") jsonParse "Whole Foods" "Grocery" (-50)
      = parseCategorizationResponse jsonParse "Invalid response without JSON" := by
    unfold categorizeTransaction
    simp [jsOrOpt, truthyOpt]
  have h2 : parseCategorizationResponse jsonParse "Invalid response without JSON"
      = parseFailureResult := by
    unfold parseCategorizationResponse
    rw [hx]
  have h3 : ruleBasedCategorization "Whole Foods" "Grocery" (-50)
      = { category := some "Groceries", subcategory := none, confidence := 7 / 10,
          explanation := "Keyword match: grocery store" } := rfl
  refine ⟨h1.trans h2, h3, ?_⟩
  rw [h3]
  intro hcontra
  have hcat := congrArg CategorizationResult.category hcontra
  simp [parseFailureResult] at hcat

/-- The six possible outputs of `ruleBasedCategorization`, with the
confidences and the single subcategory the code fixes. -/
def sixFallbackResults : List CategorizationResult :=
  [{ category := some "Groceries", subcategory := none, confidence := 7 / 10,
     explanation := "Keyword match: grocery store" },
   { category := some "Dining", subcategory := none, confidence := 6 / 10,
     explanation := "Keyword match: dining establishment" },
   { category := some "Transport", subcategory := some "Gas", confidence := 7 / 10,
     explanation := "Keyword match: gas station" },
   { category := some "Subscriptions", subcategory := none, confidence := 8 / 10,
     explanation := "Keyword match: subscription service" },
   { category := some "Income", subcategory := none, confidence := 1 / 2,
     explanation := "Positive amount suggests income" },
   { category := some "Uncategorized", subcategory := none, confidence := 0,
     explanation := "No matching rules found" }]

/-- Every rule-based result is one of the six fixed outcomes. -/
theorem ruleBased_mem_six (m d : String) (a : ℚ) :
    ruleBasedCategorization m d a ∈ sixFallbackResults := by
  simp only [ruleBasedCategorization]
  by_cases h1 : (strIncludes "grocery".data (lowerStr (m ++ " " ++ d)).data
      || strIncludes "market".data (lowerStr (m ++ " " ++ d)).data
      || strIncludes "whole foods".data (lowerStr (m ++ " " ++ d)).data
      || strIncludes "trader joe".data (lowerStr (m ++ " " ++ d)).data) = true
  · simp [h1, sixFallbackResults]
  · by_cases h2 : (strIncludes "restaurant".data (lowerStr (m ++ " " ++ d)).data
        || strIncludes "cafe".data (lowerStr (m ++ " " ++ d)).data
        || strIncludes "coffee".data (lowerStr (m ++ " " ++ d)).data
        || strIncludes "food".data (lowerStr (m ++ " " ++ d)).data) = true
    · simp [h1, h2, sixFallbackResults]
    · by_cases h3 : (strIncludes "gas".data (lowerStr (m ++ " " ++ d)).data
          || strIncludes "fuel".data (lowerStr (m ++ " " ++ d)).data
          || strIncludes "shell".data (lowerStr (m ++ " " ++ d)).data
          || strIncludes "chevron".data (lowerStr (m ++ " " ++ d)).data) = true
      · simp [h1, h2, h3, sixFallbackResults]
      · by_cases h4 : (strIncludes "netflix".data (lowerStr (m ++ " " ++ d)).data
            || strIncludes "spotify".data (lowerStr (m ++ " " ++ d)).data
            || strIncludes "subscription".data (lowerStr (m ++ " " ++ d)).data
            || strIncludes "hulu".data (lowerStr (m ++ " " ++ d)).data) = true
        · simp [h1, h2, h3, h4, sixFallbackResults]
        · by_cases h5 : (0 : ℚ) < a
          · simp [h1, h2, h3, h4, h5, sixFallbackResults]
          · simp [h1, h2, h3, h4, h5, sixFallbackResults]

/-- C10: with no truthy credential, `categorizeTransaction` returns the
rule-based result, whose value is always one of exactly six outcomes —
Groceries 0.7, Dining 0.6, Transport 0.7 with subcategory Gas,
Subscriptions 0.8, Income 0.5, Uncategorized 0 — and each of the six is
attained; Housing, Shopping, Health, Entertainment, Travel and Transfers
can never be returned on this path. -/
theorem c10_no_credential_range :
    (∀ (k1 k2 : Option String) (remote : Except Unit String)
        (jsonParse : String → Option Json) (m d : String) (a : ℚ),
      truthyOpt k1 = false → truthyOpt k2 = false →
      categorizeTransaction k1 k2 remote jsonParse m d a = ruleBasedCategorization m d a ∧
      categorizeTransaction k1 k2 remote jsonParse m d a ∈ sixFallbackResults) ∧
    (∀ r ∈ sixFallbackResults, ∃ (m d : String) (a : ℚ), ruleBasedCategorization m d a = r) := by
  constructor
  · intro k1 k2 remote jsonParse m d a h1 h2
    have hr : categorizeTransaction k1 k2 remote jsonParse m d a
        = ruleBasedCategorization m d a := by
      unfold categorizeTransaction
      simp [jsOrOpt, h1, h2]
    refine ⟨hr, ?_⟩
    rw [hr]
    exact ruleBased_mem_six m d a
  · intro r hr
    have e1 : ruleBasedCategorization "grocery" "" (-1)
        = { category := some "Groceries", subcategory := none, confidence := 7 / 10,
            explanation := "Keyword match: grocery store" } := rfl
    have e2 : ruleBasedCategorization "cafe" "" (-1)
        = { category := some "Dining", subcategory := none, confidence := 6 / 10,
            explanation := "Keyword match: dining establishment" } := rfl
    have e3 : ruleBasedCategorization "gas" "" (-1)
        = { category := some "Transport", subcategory := some "Gas", confidence := 7 / 10,
            explanation := "Keyword match: gas station" } := rfl
    have e4 : ruleBasedCategorization "netflix" "" (-1)
        = { category := some "Subscriptions", subcategory := none, confidence := 8 / 10,
            explanation := "Keyword match: subscription service" } := rfl
    have e5 : ruleBasedCategorization "pay" "" 1
        = { category := some "Income", subcategory := none, confidence := 1 / 2,
            explanation := "Positive amount suggests income" } := rfl
    have e6 : ruleBasedCategorization "pay" "" (-1)
        = { category := some "Uncategorized", subcategory := none, confidence := 0,
            explanation := "No matching rules found" } := rfl
    simp only [sixFallbackResults, List.mem_cons, List.not_mem_nil, or_false] at hr
    rcases hr with rfl | rfl | rfl | rfl | rfl | rfl
    · exact ⟨"grocery", "", -1, e1⟩
    · exact ⟨"cafe", "", -1, e2⟩
    · exact ⟨"gas", "", -1, e3⟩
    · exact ⟨"netflix", "", -1, e4⟩
    · exact ⟨"pay", "", 1, e5⟩
    · exact ⟨"pay", "", -1, e6⟩

/-- C10 witness at a concrete credential-free call. -/
theorem c10_no_credential_range_witness :
    categorizeTransaction none none (Except.error ()) (fun _ => none) "Acme" "Payroll" 2500
      = ruleBasedCategorization "Acme" "Payroll" 2500 ∧
    categorizeTransaction none none (Except.error ()) (fun _ => none) "Acme" "Payroll" 2500
      ∈ sixFallbackResults :=
  c10_no_credential_range.1 none none (Except.error ()) (fun _ => none)
    "Acme" "Payroll" 2500 rfl rfl

/-- A well-formed remote response whose confidence is the valid value 0. -/
def confZeroText : String :=
  "\x7b\"category\": \"Groceries\", \"confidence\": 0, \"explanation\": \"sure\"\x7d"

/-- The JSON object `JSON.parse` produces for `confZeroText`. -/
def confZeroJson : Json :=
  Json.obj [("category", Json.str "Groceries"), ("confidence", Json.num 0),
    ("explanation", Json.str "sure")]

/-- `JSON.parse` modelled on the single text it is applied to. -/
def confZeroParse : String → Option Json :=
  fun s => if s = confZeroText then some confZeroJson else none

/-- C8 counterexample: a present, valid confidence of 0 is NOT preserved —
`result.confidence || 0.5` treats 0 as falsy, so the returned confidence
is 0.5. -/
theorem c8_conf_zero_counterexample :
    (parseCategorizationResponse confZeroParse confZeroText).confidence = 1 / 2 ∧
    ((1 : ℚ) / 2) ≠ 0 := by
  have hx : extractJson confZeroText = some confZeroText := by decide
  have hp : confZeroParse confZeroText = some confZeroJson := by
    unfold confZeroParse
    simp
  have hres : parseCategorizationResponse confZeroParse confZeroText
      = parseCategorizationFromJson confZeroJson := by
    unfold parseCategorizationResponse
    rw [hx]
    simp only [hp]
  have hcv : jsGet confZeroJson "confidence" = some (Json.num 0) := rfl
  rw [hres]
  unfold parseCategorizationFromJson
  rw [hcv]
  constructor
  · simp [confOrHalf]
    norm_num
  · norm_num

/-- C8 (amended): for a well-formed response, a present numeric non-zero
confidence is clamped into [0, 1]; a missing confidence — or the value 0,
which is JS-falsy and hits the 0.5 default — yields exactly 0.5. -/
theorem c8_confidence_clamp_amended (jsonParse : String → Option Json)
    (text s : String) (j : Json)
    (hx : extractJson text = some s) (hp : jsonParse s = some j) :
    (∀ q : ℚ, jsGet j "confidence" = some (Json.num q) → ¬ q = 0 →
      (parseCategorizationResponse jsonParse text).confidence = max 0 (min 1 q)) ∧
    (jsGet j "confidence" = none ∨ jsGet j "confidence" = some (Json.num 0) →
      (parseCategorizationResponse jsonParse text).confidence = 1 / 2) := by
  have hres : parseCategorizationResponse jsonParse text = parseCategorizationFromJson j := by
    unfold parseCategorizationResponse
    rw [hx]
    simp only [hp]
  constructor
  · intro q hq hq0
    rw [hres]
    unfold parseCategorizationFromJson
    rw [hq]
    simp [confOrHalf, hq0]
  · intro hc
    rw [hres]
    unfold parseCategorizationFromJson
    rcases hc with hc | hc <;> rw [hc] <;> simp [confOrHalf] <;> norm_num

/-- A well-formed remote response with confidence 1.5. -/
def confBigText : String := "\x7b\"category\": \"Test\", \"confidence\": 1.5\x7d"

/-- The JSON object `JSON.parse` produces for `confBigText`. -/
def confBigJson : Json :=
  Json.obj [("category", Json.str "Test"), ("confidence", Json.num (3 / 2))]

/-- `JSON.parse` modelled on the single text it is applied to. -/
def confBigParse : String → Option Json :=
  fun s => if s = confBigText then some confBigJson else none

/-- C8 amended witness: confidence 1.5 comes back clamped. -/
theorem c8_confidence_clamp_amended_witness :
    (parseCategorizationResponse confBigParse confBigText).confidence
      = max 0 (min 1 ((3 : ℚ) / 2)) :=
  (c8_confidence_clamp_amended confBigParse confBigText confBigText confBigJson
    (by decide) (by unfold confBigParse; simp)).1 ((3 : ℚ) / 2) rfl (by norm_num)
